import Mathlib

/-!
Shallow embedding of the Redis-compatible server in src/src/main.rs.

Conventions used throughout this development:
- Rust byte slices and Rust strings are both modelled as `List Nat` with the
  convention that entries are byte values (< 256).  UTF-8 validation performed
  by `String::from_utf8(..).unwrap()` is not modelled; every input relevant to
  the statements below is ASCII, where validation always succeeds.
- Fallible Rust functions returning `Result`/`Option` are modelled with
  `Except`/`Option`.  A Rust panic (index out of range, `unwrap`/`expect` on a
  bad value, a failing `assert` macro, an unreachable/unimplemented macro, or
  integer underflow on `Instant` subtraction) is modelled as `.error .panic`;
  an ordinary `Err(())`/`None` result is modelled as `.error .err`/`none`.
- `std::time::Instant` is modelled as a `Nat` counting milliseconds from an
  arbitrary epoch; `Instant + Duration::from_millis t` is `now + t`, and
  `Instant - Duration` panics (in Rust: overflow) when the duration exceeds
  the time since the epoch.
-/

/-- Error outcome of a fallible operation: `err` models a returned
`Err(())`/`None`, while `panic` models a Rust panic. -/
inductive Fail where
  | err
  | panic
deriving DecidableEq

/-- RedisObject (main.rs lines 504-511): the tagged union of wire values.
`BulkString` keeps the declared size alongside the payload, as in the source. -/
inductive RedisObject where
  | SimpleString (s : List Nat)
  | SimpleErr (s : List Nat)
  | Integer (n : Int)
  | BulkString (size : Nat) (s : List Nat)
  | Array (elems : List RedisObject)

/-- All indices `i` with `s[i] = 13 ∧ s[i+1] = 10`: the
`stream.windows(2).enumerate().filter(w == CRLF)` computation of
`split_by_line` (main.rs lines 610-615).  `List.range s.length` visits one
index past the last window; `get? (i+1)` is `none` there, so the filter
rejects it, matching `windows(2)`. -/
def crlf_positions (s : List Nat) : List Nat :=
  (List.range s.length).filter (fun i => s.get? i == some 13 && s.get? (i + 1) == some 10)

/-- Rust slice expression `s[a..b]` (for `a ≤ b ≤ s.len`). -/
def subslice (s : List Nat) (a b : Nat) : List Nat :=
  (s.drop a).take (b - a)

/-- The middle slices `stream[p+2..q]` taken over consecutive pairs of CRLF
positions: `line_positions.windows(2).map(..)` in main.rs lines 617-622. -/
def midSlices (s : List Nat) : List Nat → List (List Nat)
  | p :: q :: rest => subslice s (p + 2) q :: midSlices s (q :: rest)
  | _ => []

/-- Last element of a position list (`line_positions.last()`), defaulting to 0
on the empty list (unused there: the caller checks emptiness first). -/
def lastPos : List Nat → Nat
  | [] => 0
  | [p] => p
  | _ :: rest => lastPos rest

/-- split_by_line (main.rs lines 609-628): cut the stream at every CRLF
window and drop empty slices.  Indexing `line_positions[0]` panics when the
stream holds no CRLF, modelled as `none`. -/
def split_by_line (s : List Nat) : Option (List (List Nat)) :=
  match crlf_positions s with
  | [] => none
  | p :: ps =>
    some ((s.take p :: (midSlices s (p :: ps) ++ [s.drop (lastPos (p :: ps) + 2)])).filter
      (fun l => !l.isEmpty))

/-- One step of splitting a byte list at CRLF separators, processing from the
right: a 13 followed by a segment that starts with 10 closes a segment.
Because the separator [13, 10] has two distinct bytes, its occurrences cannot
overlap, so cutting at every window position (as `split_by_line` does) is the
same as this one-pass split; the equivalence is proved below
(`split_by_line_eq`). -/
def splitStep (c : Nat) (acc : List (List Nat)) : List (List Nat) :=
  match c, acc with
  | 13, (10 :: l) :: ls => [] :: l :: ls
  | c, l :: ls => (c :: l) :: ls
  | c, [] => [[c]]

/-- Split a byte list at every occurrence of the CRLF separator (all segments
kept, including empty ones). -/
def splitCRLF (s : List Nat) : List (List Nat) :=
  s.foldr splitStep [[]]

/-- Whether the stream contains a CRLF window (so `split_by_line` succeeds). -/
def hasCRLF (s : List Nat) : Bool :=
  !(crlf_positions s).isEmpty

/-- ASCII digit test, used to model Rust integer parsing. -/
def isDigit (c : Nat) : Bool := 48 ≤ c && c ≤ 57

/-- Decimal value of a list of ASCII digit bytes (most significant first). -/
def digitsVal (l : List Nat) : Nat := l.foldl (fun a c => 10 * a + (c - 48)) 0

/-- Rust `str::parse::<usize>()` on a 64-bit target: an optional leading `+`
sign, then one or more decimal digits, value below 2^64 (larger values
overflow and return an error). -/
def parse_usize (s : List Nat) : Option Nat :=
  let t := if s.head? = some 43 then s.tail else s
  if t ≠ [] ∧ t.all isDigit ∧ digitsVal t < 18446744073709551616 then some (digitsVal t)
  else none

/-- Rust `str::parse::<u64>()`: the same grammar and range as `usize` on a
64-bit target. -/
def parse_u64 (s : List Nat) : Option Nat := parse_usize s

/-- Rust `str::parse::<i32>()`: optional sign, decimal digits, within the
signed 32-bit range. -/
def parse_i32 (s : List Nat) : Option Int :=
  if s.head? = some 43 then
    if s.tail ≠ [] ∧ s.tail.all isDigit ∧ digitsVal s.tail ≤ 2147483647 then
      some (digitsVal s.tail)
    else none
  else if s.head? = some 45 then
    if s.tail ≠ [] ∧ s.tail.all isDigit ∧ digitsVal s.tail ≤ 2147483648 then
      some (-(digitsVal s.tail : Int))
    else none
  else
    if s ≠ [] ∧ s.all isDigit ∧ digitsVal s ≤ 2147483647 then some (digitsVal s)
    else none

mutual

/-- RESPParser::parse_object (main.rs lines 530-574).  The Rust function
first evaluates `stream[0..2] == b"\r\n"`, which panics when the stream is
shorter than two bytes.  The leading byte then selects the sub-parser via
`DataType::from_byte` (lines 491-502); a byte outside `+ - : $ *` hits an
unreachable-macro panic there, and `-` (SimpleErr) reaches the catch-all
unimplemented-macro arm of the match (line 572), also a panic.  Consumed
counts are exactly those of the source: `parts[0].len()` for simple strings
and integers, `parts[0].len() + parts[1].len() + 3` for bulk strings (after
an assert that the payload length equals the declared size), and the
`parse_array` offset for arrays (which does not include the `*` byte). -/
def parse_object (stream : List Nat) : Except Fail (Option RedisObject × Nat) :=
  if stream.length < 2 then .error .panic
  else if stream.take 2 = [13, 10] then .ok (none, 2)
  else
    match stream with
    | [] => .error .panic
    | b :: rest =>
      if b = 42 then parse_array rest
      else if b = 43 then
        match split_by_line rest with
        | some (p0 :: _) => .ok (some (.SimpleString p0), p0.length)
        | _ => .error .panic
      else if b = 58 then
        match split_by_line rest with
        | some (p0 :: _) =>
          match parse_i32 p0 with
          | some v => .ok (some (.Integer v), p0.length)
          | none => .error .panic
        | _ => .error .panic
      else if b = 36 then
        match split_by_line rest with
        | some (p0 :: p1 :: _) =>
          match parse_usize p0 with
          | some size =>
            if p1.length = size then .ok (some (.BulkString size p1), p0.length + p1.length + 3)
            else .error .panic
          | none => .error .panic
        | _ => .error .panic
      else .error .panic
termination_by 3 * stream.length

/-- RESPParser::parse_array (main.rs lines 576-606): split the stream, parse
the first line as the declared element count (a panic if it is not a number),
then run the accumulation loop from offset `parts[0].len() + 2`.  The
declared count is bound to an unused variable in the source and never
consulted again. -/
def parse_array (stream : List Nat) : Except Fail (Option RedisObject × Nat) :=
  match split_by_line stream with
  | none => .error .panic
  | some [] => .error .panic
  | some (p0 :: _) =>
    match parse_usize p0 with
    | none => .error .panic
    | some _size => parseLoop stream (p0.length + 2) []
termination_by 3 * stream.length + 2

/-- The `loop` of RESPParser::parse_array (main.rs lines 584-603): parse a
sub-value at the current offset, push it, advance, and stop once the offset
reaches the stream length (strictly exceeds it in the Some branch, reaches it
in the None branch); errors propagate.  The `consumed = 0` guard is
unreachable (`parse_object` always reports at least one consumed byte, see
`parse_object_consumed_pos`); it only makes the decrease of the termination
measure structural. -/
def parseLoop (stream : List Nat) (pos : Nat) (objects : List RedisObject) :
    Except Fail (Option RedisObject × Nat) :=
  match parse_object (stream.drop pos) with
  | .ok (some object, consumed) =>
    if _hc : consumed = 0 then .error .panic
    else if _h2 : pos + consumed > stream.length then
      .ok (some (.Array (objects ++ [object])), pos + consumed)
    else parseLoop stream (pos + consumed) (objects ++ [object])
  | .ok (none, consumed) =>
    if _hc : consumed = 0 then .error .panic
    else if _h2 : pos + consumed ≥ stream.length then
      .ok (some (.Array objects), pos + consumed)
    else parseLoop stream (pos + consumed) objects
  | .error e => .error e
termination_by 3 * (stream.length - pos) + 1

end

/-- RESPParser::parse (main.rs lines 522-528): keep the object of a
successful outer parse, turn a `(None, _)` result into `Err(())`. -/
def RESPParser.parse (stream : List Nat) : Except Fail RedisObject :=
  match parse_object stream with
  | .ok (some o, _) => .ok o
  | .ok (none, _) => .error .err
  | .error e => .error e

/-- Decimal digits of `n`, most significant first (helper for `natDigits`);
the fuel argument is structural and `natDigitsGo n n` is always enough. -/
def natDigitsGo : Nat → Nat → List Nat
  | 0, _ => []
  | fuel + 1, n => if n = 0 then [] else natDigitsGo fuel (n / 10) ++ [n % 10 + 48]

/-- ASCII bytes of the decimal representation of `n`: Rust
`format!("{}", n)`. -/
def natDigits (n : Nat) : List Nat :=
  if n = 0 then [48] else natDigitsGo n n

/-- serialize_to_simple_string (main.rs lines 450-452). -/
def serialize_to_simple_string (s : List Nat) : List Nat :=
  43 :: s ++ [13, 10]

/-- serialize_to_bulk_string (main.rs lines 454-456). -/
def serialize_to_bulk_string (s : List Nat) : List Nat :=
  36 :: natDigits s.length ++ [13, 10] ++ s ++ [13, 10]

/-- serialize_to_array (main.rs lines 436-449): the element count line
followed by each element serialized as a bulk string. -/
def serialize_to_array (strings : List (List Nat)) : List Nat :=
  42 :: natDigits strings.length ++ [13, 10] ++ (strings.map serialize_to_bulk_string).flatten

/-- Command (main.rs lines 473-481). -/
inductive Command where
  | Ping
  | Echo (s : List Nat)
  | Set (key : List Nat) (value : List Nat) (expiry : Option Nat)
  | Get (key : List Nat)
  | Keys (pattern : List Nat)
  | ConfigGet (key : List Nat)

/-- Rust `str::to_uppercase` restricted to ASCII (all keyword comparisons in
the source involve ASCII bytes only). -/
def upper (s : List Nat) : List Nat :=
  s.map (fun c => if 97 ≤ c ∧ c ≤ 122 then c - 32 else c)

/-- Keyword byte strings used by the command resolver. -/
def strPING : List Nat := [80, 73, 78, 71]

def strECHO : List Nat := [69, 67, 72, 79]

def strKEYS : List Nat := [75, 69, 89, 83]

def strGET : List Nat := [71, 69, 84]

def strSET : List Nat := [83, 69, 84]

def strPX : List Nat := [80, 88]

def strCONFIG : List Nat := [67, 79, 78, 70, 73, 71]

/-- The match over the decoded array in Command::from_buffer (main.rs lines
635-694).  Rust slice patterns with literal size fields, e.g.
`[BulkString(3, s), BulkString(_, key), BulkString(_, value)]`, are rendered
as a match on the list shape followed by equality tests on the size fields,
in the same order as the source arms; a shape/size combination matched by no
arm falls to `Err(())`. -/
def Command.fromObject : RedisObject → Except Fail Command
  | .Array arr =>
    match arr with
    | [.BulkString n1 s1] =>
      if n1 = 4 then
        if upper s1 = strPING then .ok .Ping else .error .err
      else .error .err
    | [.BulkString n1 s1, .BulkString _ s2] =>
      if n1 = 4 then
        if upper s1 = strECHO then .ok (.Echo s2)
        else if upper s1 = strKEYS then .ok (.Keys s2)
        else .error .err
      else if n1 = 3 then
        if upper s1 = strGET then .ok (.Get s2) else .error .err
      else .error .err
    | [.BulkString n1 s1, .BulkString _ s2, .BulkString _ s3, .BulkString n4 s4,
        .BulkString _ s5] =>
      if n1 = 3 ∧ n4 = 2 then
        match parse_u64 s5 with
        | some d =>
          if upper s1 = strSET ∧ upper s4 = strPX then .ok (.Set s2 s3 (some d))
          else .error .err
        | none => .error .err
      else .error .err
    | [.BulkString n1 s1, .BulkString n2 s2, .BulkString _ s3] =>
      if n1 = 3 then
        if upper s1 = strSET then .ok (.Set s2 s3 none) else .error .err
      else if n1 = 6 ∧ n2 = 3 then
        if upper s2 = strGET ∨ upper s1 = strCONFIG then .ok (.ConfigGet s3) else .error .err
      else .error .err
    | _ => .error .err
  | _ => .error .err

/-- Command::from_buffer (main.rs lines 631-699): parse, then resolve. -/
def Command.from_buffer (buf : List Nat) : Except Fail Command :=
  match RESPParser.parse buf with
  | .ok o => Command.fromObject o
  | .error e => .error e

/-- A store entry: optional absolute expiry instant (milliseconds) and value
bytes, as in `HashMap<String, (Option<Instant>, Vec<u8>)>`. -/
abbrev StoreEntry := Option Nat × List Nat

/-- The shared storage map, modelled as an association list. `HashMap` keeps
at most one binding per key; `store_insert` replaces in place and
`store_remove` drops every binding of the key, so the model never depends on
a separate uniqueness invariant. -/
abbrev Storage := List (List Nat × StoreEntry)

/-- `HashMap::get`. -/
def store_get (k : List Nat) : Storage → Option StoreEntry
  | [] => none
  | (k2, e) :: t => if k2 = k then some e else store_get k t

/-- `HashMap::insert` (replace any existing binding of the key). -/
def store_insert (k : List Nat) (e : StoreEntry) : Storage → Storage
  | [] => [(k, e)]
  | (k2, e2) :: t => if k2 = k then (k, e) :: t else (k2, e2) :: store_insert k e t

/-- `HashMap::remove`. -/
def store_remove (k : List Nat) : Storage → Storage
  | [] => []
  | (k2, e2) :: t => if k2 = k then store_remove k t else (k2, e2) :: store_remove k t

/-- Config (main.rs lines 459-462). -/
structure Config where
  dir : Option (List Nat)
  db_filename : Option (List Nat)

/-- State (main.rs lines 26-29): the process state shared by every
connection handler. -/
structure ServerState where
  config : Config
  storage : Storage

/-- Reply constants written literally by `handle`. -/
def pongReply : List Nat := [43, 80, 79, 78, 71, 13, 10]

/-- The null bulk string `$-1` followed by CRLF. -/
def nullBulkReply : List Nat := [36, 45, 49, 13, 10]

/-- The generic error reply `-Error` followed by CRLF. -/
def errorReply : List Nat := [45, 69, 114, 114, 111, 114, 13, 10]

/-- Parameter name `dir`. -/
def strdir : List Nat := [100, 105, 114]

/-- Parameter name `dbfilename`. -/
def strdbfilename : List Nat := [100, 98, 102, 105, 108, 101, 110, 97, 109, 101]

/-- One dispatch of the match in `handle` (main.rs lines 345-432) for an
already resolved command: the list of `write_all` payloads issued (in order)
and the state afterwards.  `now` is the value of `Instant::now()` during the
dispatch.  In the Get branch the source checks `now >= expiry` and then both
replies with the null bulk string and removes the entry.  In the ConfigGet
branch the `dbfilename`-unset arm of the source is an empty block, so no
reply at all is written there.  Keys iteration order of the hash map is
unspecified in Rust; the model uses the association list order. -/
def handle_command (st : ServerState) (now : Nat) : Command → List (List Nat) × ServerState
  | .Ping => ([pongReply], st)
  | .Echo s => ([serialize_to_bulk_string s], st)
  | .Set key value expiry =>
    let absExpiry := expiry.map (fun t => now + t)
    ([serialize_to_simple_string [79, 75]],
      { st with storage := store_insert key (absExpiry, value) st.storage })
  | .Get key =>
    match store_get key st.storage with
    | some (some expiry, v) =>
      if now ≥ expiry then
        ([nullBulkReply], { st with storage := store_remove key st.storage })
      else ([serialize_to_bulk_string v], st)
    | some (none, v) => ([serialize_to_bulk_string v], st)
    | none => ([nullBulkReply], st)
  | .Keys pattern =>
    let keys := if pattern = [42] then st.storage.map Prod.fst else []
    ([serialize_to_array keys], st)
  | .ConfigGet key =>
    if key ≠ strdir ∧ key ≠ strdbfilename then ([errorReply], st)
    else if key = strdir then
      match st.config.dir with
      | some dir => ([serialize_to_array [strdir, dir]], st)
      | none => ([errorReply], st)
    else
      match st.config.db_filename with
      | some dbf => ([serialize_to_array [strdbfilename, dbf]], st)
      | none => ([], st)

/-- One request/response iteration of `handle` (main.rs lines 345-432): the
buffer read from the socket is resolved and dispatched; `Err(())` from the
resolver is answered with the generic error reply, while a panic aborts the
handler thread with nothing written, modelled as `.error .panic`. -/
def handle_step (st : ServerState) (now : Nat) (buf : List Nat) :
    Except Fail (List (List Nat) × ServerState) :=
  match Command.from_buffer buf with
  | .ok c => .ok (handle_command st now c)
  | .error .err => .ok ([errorReply], st)
  | .error .panic => .error .panic

/-- RDBFileObject (main.rs lines 38-41). -/
inductive RDBFileObject where
  | Str (bytes : List Nat)
  | Integer (n : Int)

/-- Big-endian value of a list of bytes: `uN::from_be_bytes`. -/
def beBytesVal (l : List Nat) : Nat := l.foldl (fun a b => 256 * a + b) 0

/-- decode_length (main.rs lines 94-140).  All failure paths of the source
are panics (`unimplemented`/`panic` macros, out-of-range indexing); the
`Err(())` variant of its Rust signature is never produced.  In the
14-bit branch the source computes `(first_byte & 63) + (second_byte << 6)` in
u8 arithmetic: the shift keeps only the low two bits of the second byte
(`(b1 * 64) % 256`), and the following u8 addition cannot overflow because
the summands are at most 63 and 192. -/
def decode_length (data : List Nat) : Except Fail (Nat × Nat) :=
  match data with
  | [] => .error .panic
  | b0 :: rest =>
    if b0 / 64 = 0 then .ok (b0 % 64, 1)
    else if b0 / 64 = 1 then
      match rest with
      | [] => .error .panic
      | b1 :: _ => .ok (b0 % 64 + (b1 * 64) % 256, 2)
    else if b0 / 64 = 2 then .error .panic
    else if b0 / 64 = 3 then
      if b0 % 64 = 0 then
        match rest with
        | [] => .error .panic
        | b1 :: _ => .ok (b1, 2)
      else if b0 % 64 = 1 then
        match rest with
        | b1 :: b2 :: _ => .ok (256 * b1 + b2, 3)
        | _ => .error .panic
      else if b0 % 64 = 2 then
        match rest with
        | b1 :: b2 :: b3 :: b4 :: _ =>
          .ok (256 * (256 * (256 * b1 + b2) + b3) + b4, 5)
        | _ => .error .panic
      else .error .panic
    else .error .panic

/-- decode_object (main.rs lines 46-92): same length grammar as
`decode_length`, but string branches also slice out the payload bytes (a
panic if the data is too short), and the top-bits catch-all returns `None`
(modelled `.error .err`), which in the source only an impossible byte value
could reach. -/
def decode_object (data : List Nat) : Except Fail (RDBFileObject × Nat) :=
  match data with
  | [] => .error .panic
  | b0 :: rest =>
    if b0 / 64 = 0 then
      let size := b0 % 64
      if 1 + size ≤ data.length then .ok (.Str (subslice data 1 (size + 1)), size + 1)
      else .error .panic
    else if b0 / 64 = 1 then
      match rest with
      | [] => .error .panic
      | b1 :: _ =>
        let size := b0 % 64 + (b1 * 64) % 256
        if 2 + size ≤ data.length then .ok (.Str (subslice data 2 (size + 2)), size + 2)
        else .error .panic
    else if b0 / 64 = 2 then .error .panic
    else if b0 / 64 = 3 then
      if b0 % 64 = 0 then
        match rest with
        | [] => .error .panic
        | b1 :: _ => .ok (.Integer b1, 2)
      else if b0 % 64 = 1 then
        match rest with
        | b1 :: b2 :: _ => .ok (.Integer (256 * b1 + b2), 3)
        | _ => .error .panic
      else if b0 % 64 = 2 then
        match rest with
        | b1 :: b2 :: b3 :: b4 :: _ =>
          .ok (.Integer (256 * (256 * (256 * b1 + b2) + b3) + b4), 5)
        | _ => .error .panic
      else .error .panic
    else .error .err

/-- The keyspace-entry portion of RDBObject::from_file (main.rs lines
235-280), reading one entry of the hash table at byte offset `i`: a type
flag (only 0, plain string, is implemented; anything else hits the
unimplemented-macro panic), a length-encoded key, a length-encoded value,
then the optional expiry opcode handling of lines 261-274.  The source
advances past a 0xFC opcode before reading its 8-byte big-endian
milliseconds value, but in the 0xFD branch it reads the 4 bytes starting at
the opcode byte itself and advances by 4 only.  In both branches the stored
instant is `Instant::now() - duration`, a panic when the duration exceeds
the model epoch.  Returns the `(key, entry)` pair inserted into the store
being built and the offset after the entry. -/
def rdb_read_entry (data : List Nat) (i : Nat) (now : Nat) :
    Except Fail ((List Nat × StoreEntry) × Nat) :=
  match data.get? i with
  | none => .error .panic
  | some typeFlag =>
    if typeFlag = 0 then
      match decode_length (data.drop (i + 1)) with
      | .error e => .error e
      | .ok (ksize, kconsumed) =>
        let ki := i + 1 + kconsumed
        if ki + ksize ≤ data.length then
          let key := subslice data ki (ki + ksize)
          match decode_length (data.drop (ki + ksize)) with
          | .error e => .error e
          | .ok (vsize, vconsumed) =>
            let vi := ki + ksize + vconsumed
            if vi + vsize ≤ data.length then
              let value := subslice data vi (vi + vsize)
              let ei := vi + vsize
              match data.get? ei with
              | none => .error .panic
              | some op =>
                if op = 252 then
                  if ei + 1 + 8 ≤ data.length then
                    let ts := beBytesVal (subslice data (ei + 1) (ei + 1 + 8))
                    if ts ≤ now then .ok ((key, (some (now - ts), value)), ei + 1 + 8)
                    else .error .panic
                  else .error .panic
                else if op = 253 then
                  if ei + 4 ≤ data.length then
                    let ts := beBytesVal (subslice data ei (ei + 4))
                    if 1000 * ts ≤ now then .ok ((key, (some (now - 1000 * ts), value)), ei + 4)
                    else .error .panic
                  else .error .panic
                else .ok ((key, (none, value)), ei)
            else .error .panic
        else .error .panic
    else .error .panic

/-! ## Properties of the CRLF splitter -/

theorem splitCRLF_ne_nil (s : List Nat) : splitCRLF s ≠ [] := by
  induction s with
  | nil => simp [splitCRLF]
  | cons c t ih =>
    show splitStep c (splitCRLF t) ≠ []
    unfold splitStep
    split <;> simp_all

theorem crlf_positions_cons (c : Nat) (t : List Nat) :
    crlf_positions (c :: t) =
      (if c = 13 ∧ t.head? = some 10 then [0] else []) ++ (crlf_positions t).map (· + 1) := by
  have hstep : ∀ (l : List Nat),
      (l.map Nat.succ).filter
          (fun i => (c :: t).get? i == some 13 && (c :: t).get? (i + 1) == some 10)
        = (l.filter (fun i => t.get? i == some 13 && t.get? (i + 1) == some 10)).map Nat.succ := by
    intro l
    rw [List.filter_map]
    rfl
  have hhead : ((c :: t).get? 0 == some 13 && (c :: t).get? (0 + 1) == some 10)
      = decide (c = 13 ∧ t.head? = some 10) := by
    cases t <;> simp [List.get?, beq_eq_decide]
  unfold crlf_positions
  rw [List.length_cons, List.range_succ_eq_map, List.filter_cons, hstep, hhead]
  by_cases h : c = 13 ∧ t.head? = some 10
  · rw [if_pos (by simpa using h), if_pos h]
    rfl
  · rw [if_neg (by simpa using h), if_neg h, List.nil_append]

theorem hasCRLF_nil : hasCRLF [] = false := rfl

theorem hasCRLF_cons (c : Nat) (t : List Nat) :
    hasCRLF (c :: t) = (decide (c = 13 ∧ t.head? = some 10) || hasCRLF t) := by
  unfold hasCRLF
  rw [crlf_positions_cons]
  by_cases h : c = 13 ∧ t.head? = some 10
  · simp [h]
  · simp [h]
    cases crlf_positions t <;> simp

theorem splitStep_ne (c : Nat) (l : List Nat) (ls : List (List Nat))
    (h : ¬(c = 13 ∧ l.head? = some 10)) :
    splitStep c (l :: ls) = (c :: l) :: ls := by
  unfold splitStep
  split <;> simp_all

theorem splitCRLF_cons (c : Nat) (t : List Nat) :
    splitCRLF (c :: t) = splitStep c (splitCRLF t) := rfl

theorem splitCRLF_no_crlf (t : List Nat) (h : hasCRLF t = false) : splitCRLF t = [t] := by
  induction t with
  | nil => rfl
  | cons c t ih =>
    rw [hasCRLF_cons, Bool.or_eq_false_iff] at h
    obtain ⟨h1, h2⟩ := h
    rw [splitCRLF_cons, ih h2, splitStep_ne c t []]
    simpa using h1

theorem splitCRLF_append_crlf (a t : List Nat) (h : hasCRLF a = false) :
    splitCRLF (a ++ 13 :: 10 :: t) = a :: splitCRLF t := by
  induction a with
  | nil =>
    obtain ⟨l, ls, hl⟩ : ∃ l ls, splitCRLF t = l :: ls := by
      cases hsp : splitCRLF t with
      | nil => exact absurd hsp (splitCRLF_ne_nil t)
      | cons l ls => exact ⟨l, ls, rfl⟩
    show splitStep 13 (splitStep 10 (splitCRLF t)) = [] :: splitCRLF t
    rw [hl]
    rfl
  | cons c a ih =>
    rw [hasCRLF_cons, Bool.or_eq_false_iff] at h
    obtain ⟨h1, h2⟩ := h
    show splitStep c (splitCRLF (a ++ 13 :: 10 :: t)) = (c :: a) :: splitCRLF t
    rw [ih h2, splitStep_ne c a (splitCRLF t)]
    simpa using h1

theorem midSlices_map_succ (c : Nat) (t : List Nat) :
    ∀ L : List Nat, midSlices (c :: t) (L.map (· + 1)) = midSlices t L
  | [] => rfl
  | [_] => rfl
  | p :: q :: rest => by
    show subslice (c :: t) (p + 1 + 2) (q + 1) :: midSlices (c :: t) ((q :: rest).map (· + 1))
        = subslice t (p + 2) q :: midSlices t (q :: rest)
    rw [midSlices_map_succ c t (q :: rest)]
    congr 1
    unfold subslice
    have h1 : p + 1 + 2 = (p + 2) + 1 := by omega
    have h2 : q + 1 - (p + 1 + 2) = q - (p + 2) := by omega
    rw [h1, h2, List.drop_succ_cons]

theorem lastPos_cons_cons (a b : Nat) (l : List Nat) :
    lastPos (a :: b :: l) = lastPos (b :: l) := rfl

theorem lastPos_map_succ : ∀ L : List Nat, L ≠ [] → lastPos (L.map (· + 1)) = lastPos L + 1
  | [], h => absurd rfl h
  | [_], _ => rfl
  | p :: q :: rest, _ => by
    show lastPos ((p + 1) :: (q + 1) :: rest.map (· + 1)) = lastPos (p :: q :: rest) + 1
    rw [lastPos_cons_cons, lastPos_cons_cons]
    exact lastPos_map_succ (q :: rest) (by simp)

theorem head?_take (n : Nat) (t : List Nat) :
    (t.take n).head? = if n = 0 then none else t.head? := by
  cases n with
  | zero => simp
  | succ m => cases t <;> simp

theorem midSlices_cons_cons (s : List Nat) (p q : Nat) (rest : List Nat) :
    midSlices s (p :: q :: rest) = subslice s (p + 2) q :: midSlices s (q :: rest) := rfl

theorem midSlices_single (s : List Nat) (p : Nat) : midSlices s [p] = [] := rfl

theorem lastPos_single (p : Nat) : lastPos [p] = p := rfl

theorem splitStep_13_10 (l : List Nat) (ls : List (List Nat)) :
    splitStep 13 ((10 :: l) :: ls) = [] :: l :: ls := rfl

theorem split_lines_eq (s : List Nat) :
    ∀ (p : Nat) (ps : List Nat), crlf_positions s = p :: ps →
      s.take p :: (midSlices s (p :: ps) ++ [s.drop (lastPos (p :: ps) + 2)]) = splitCRLF s := by
  induction s with
  | nil => intro p ps h; simp [crlf_positions] at h
  | cons c t ih =>
    intro p ps h
    rw [crlf_positions_cons] at h
    by_cases hc : c = 13 ∧ t.head? = some 10
    · rw [if_pos hc, List.singleton_append] at h
      injection h with h1 h2
      subst h1
      obtain ⟨hc13, hchead⟩ := hc
      subst hc13
      obtain ⟨t', rfl⟩ : ∃ t', t = 10 :: t' := by
        cases t with
        | nil => simp at hchead
        | cons x t' =>
          simp only [List.head?_cons, Option.some.injEq] at hchead
          exact ⟨t', by rw [hchead]⟩
      cases hpt : crlf_positions (10 :: t') with
      | nil =>
        rw [hpt] at h2
        simp only [List.map_nil] at h2
        subst h2
        have ht' : hasCRLF t' = false := by
          rw [crlf_positions_cons, if_neg (by simp), List.nil_append] at hpt
          rw [List.map_eq_nil_iff] at hpt
          unfold hasCRLF
          rw [hpt]
          rfl
        have hsp : splitCRLF (13 :: 10 :: t') = [] :: splitCRLF t' := by
          have h0 := splitCRLF_append_crlf [] t' rfl
          simpa using h0
        rw [hsp, splitCRLF_no_crlf t' ht', midSlices_single, lastPos_single]
        rfl
      | cons q qs =>
        rw [hpt] at h2
        simp only [List.map_cons] at h2
        subst h2
        have hpt2 := hpt
        rw [crlf_positions_cons, if_neg (by simp), List.nil_append] at hpt2
        obtain ⟨q', rfl⟩ : ∃ q', q = q' + 1 := by
          cases hpt3 : crlf_positions t' with
          | nil => rw [hpt3] at hpt2; simp at hpt2
          | cons a b =>
            rw [hpt3, List.map_cons] at hpt2
            injection hpt2 with hq _
            exact ⟨a, hq.symm⟩
        have IH := ih (q' + 1) qs hpt
        rw [splitCRLF_cons, ← IH, List.take_succ_cons, splitStep_13_10]
        have e1 : subslice (13 :: 10 :: t') (0 + 2) (q' + 1 + 1) = t'.take q' := by
          unfold subslice
          have harith : q' + 1 + 1 - (0 + 2) = q' := by omega
          rw [harith]
          rfl
        have hmc : (q' + 1 + 1) :: List.map (· + 1) qs = List.map (· + 1) ((q' + 1) :: qs) := by
          simp
        have e2 : midSlices (13 :: 10 :: t') ((q' + 1 + 1) :: List.map (· + 1) qs)
            = midSlices (10 :: t') ((q' + 1) :: qs) := by
          rw [hmc, midSlices_map_succ]
        have e3 : lastPos (0 :: (q' + 1 + 1) :: List.map (· + 1) qs)
            = lastPos ((q' + 1) :: qs) + 1 := by
          rw [lastPos_cons_cons, hmc, lastPos_map_succ _ (by simp)]
        rw [List.take_zero, midSlices_cons_cons, e1, e2, e3]
        have e4 : lastPos ((q' + 1) :: qs) + 1 + 2 = (lastPos ((q' + 1) :: qs) + 2) + 1 := by
          omega
        rw [e4, List.drop_succ_cons]
        try rfl
    · rw [if_neg hc, List.nil_append] at h
      cases hpt : crlf_positions t with
      | nil => rw [hpt] at h; simp at h
      | cons p2 ps2 =>
        rw [hpt, List.map_cons] at h
        injection h with h1 h2
        subst h1
        subst h2
        have IH := ih p2 ps2 hpt
        rw [splitCRLF_cons, ← IH]
        have hne : ¬(c = 13 ∧ (t.take p2).head? = some 10) := by
          rw [head?_take]
          rintro ⟨hc13, hhd⟩
          by_cases hp0 : p2 = 0
          · rw [if_pos hp0] at hhd
            exact Option.noConfusion hhd
          · rw [if_neg hp0] at hhd
            exact hc ⟨hc13, hhd⟩
        rw [splitStep_ne c (t.take p2) _ hne, List.take_succ_cons]
        have hmc : (p2 + 1) :: List.map (· + 1) ps2 = List.map (· + 1) (p2 :: ps2) := by
          simp
        have e2 : midSlices (c :: t) ((p2 + 1) :: List.map (· + 1) ps2)
            = midSlices t (p2 :: ps2) := by
          rw [hmc, midSlices_map_succ]
        have e3 : lastPos ((p2 + 1) :: List.map (· + 1) ps2) = lastPos (p2 :: ps2) + 1 := by
          rw [hmc, lastPos_map_succ _ (by simp)]
        rw [e2, e3]
        have e4 : lastPos (p2 :: ps2) + 1 + 2 = (lastPos (p2 :: ps2) + 2) + 1 := by
          omega
        rw [e4, List.drop_succ_cons]
        try rfl

theorem split_by_line_eq (s : List Nat) :
    split_by_line s =
      if hasCRLF s then some ((splitCRLF s).filter (fun l => !l.isEmpty)) else none := by
  unfold split_by_line hasCRLF
  cases hps : crlf_positions s with
  | nil => simp
  | cons p ps =>
    dsimp only
    rw [split_lines_eq s p ps hps]
    simp

theorem hasCRLF_append_crlf (a t : List Nat) : hasCRLF (a ++ 13 :: 10 :: t) = true := by
  induction a with
  | nil =>
    rw [List.nil_append, hasCRLF_cons]
    simp
  | cons c a ih =>
    rw [List.cons_append, hasCRLF_cons, ih]
    simp

theorem split_by_line_append_crlf (a t : List Nat) (hne : a ≠ []) (ha : hasCRLF a = false) :
    split_by_line (a ++ 13 :: 10 :: t)
      = some (a :: (splitCRLF t).filter (fun l => !l.isEmpty)) := by
  rw [split_by_line_eq, if_pos (hasCRLF_append_crlf a t), splitCRLF_append_crlf a t ha]
  rw [List.filter_cons, if_pos (by simpa using hne)]

theorem split_by_line_one_seg (a : List Nat) (hne : a ≠ []) (ha : hasCRLF a = false) :
    split_by_line (a ++ [13, 10]) = some [a] := by
  rw [split_by_line_append_crlf a [] hne ha]
  rfl

theorem split_by_line_two_seg (a p r : List Nat) (hnea : a ≠ []) (ha : hasCRLF a = false)
    (hnep : p ≠ []) (hp : hasCRLF p = false) :
    split_by_line (a ++ 13 :: 10 :: (p ++ 13 :: 10 :: r))
      = some (a :: p :: (splitCRLF r).filter (fun l => !l.isEmpty)) := by
  rw [split_by_line_append_crlf a _ hnea ha, splitCRLF_append_crlf p r hp]
  rw [List.filter_cons, if_pos (by simpa using hnep)]

/-- Unfolding of `parse_object` on a stream of length at least two that does
not start with CRLF: dispatch on the tag byte. -/
theorem parse_object_cons (b : Nat) (rest : List Nat)
    (hlen : ¬(b :: rest).length < 2) (hb : (b :: rest).take 2 ≠ [13, 10]) :
    parse_object (b :: rest) =
      (if b = 42 then parse_array rest
      else if b = 43 then
        match split_by_line rest with
        | some (p0 :: _) => .ok (some (.SimpleString p0), p0.length)
        | _ => .error .panic
      else if b = 58 then
        match split_by_line rest with
        | some (p0 :: _) =>
          match parse_i32 p0 with
          | some v => .ok (some (.Integer v), p0.length)
          | none => .error .panic
        | _ => .error .panic
      else if b = 36 then
        match split_by_line rest with
        | some (p0 :: p1 :: _) =>
          match parse_usize p0 with
          | some size =>
            if p1.length = size then .ok (some (.BulkString size p1), p0.length + p1.length + 3)
            else .error .panic
          | none => .error .panic
        | _ => .error .panic
      else .error .panic) := by
  rw [parse_object.eq_def, if_neg hlen, if_neg hb]

/-- A stream shorter than two bytes makes `parse_object` panic (the source
evaluates `stream[0..2]` first). -/
theorem parse_object_short (s : List Nat) (h : s.length < 2) :
    parse_object s = .error .panic := by
  rw [parse_object.eq_def, if_pos h]

/-- A stream starting with CRLF is treated as an absent value of two bytes. -/
theorem parse_object_crlf (t : List Nat) :
    parse_object (13 :: 10 :: t) = .ok (none, 2) := by
  rw [parse_object.eq_def, if_neg (by simp),
    if_pos (show List.take 2 (13 :: 10 :: t) = [13, 10] from rfl)]

/-- Simple string: consumed count is the payload token length only (the tag
byte and the CRLF delimiter are not counted by the source). -/
theorem parse_simple_eq (s : List Nat) (hne : s ≠ []) (hno : hasCRLF s = false) :
    parse_object (43 :: (s ++ [13, 10])) = .ok (some (.SimpleString s), s.length) := by
  rw [parse_object_cons 43 (s ++ [13, 10]) (by simp) (by simp)]
  rw [if_neg (by omega), if_pos rfl, split_by_line_one_seg s hne hno]

/-- Integer: consumed count is the payload token length only. -/
theorem parse_integer_eq (s : List Nat) (v : Int) (hne : s ≠ []) (hno : hasCRLF s = false)
    (hv : parse_i32 s = some v) :
    parse_object (58 :: (s ++ [13, 10])) = .ok (some (.Integer v), s.length) := by
  rw [parse_object_cons 58 (s ++ [13, 10]) (by simp) (by simp)]
  rw [if_neg (by omega), if_neg (by omega), if_pos rfl, split_by_line_one_seg s hne hno]
  show (match parse_i32 s with
    | some v => Except.ok (some (RedisObject.Integer v), s.length)
    | none => (Except.error Fail.panic : Except Fail (Option RedisObject × Nat)))
      = Except.ok (some (RedisObject.Integer v), s.length)
  rw [hv]

/-- A simple error frame reaches the unimplemented-macro arm: a panic, for
every payload. -/
theorem parse_simpleerr_panic (s : List Nat) : parse_object (45 :: s) = .error .panic := by
  cases s with
  | nil => exact parse_object_short [45] (by simp)
  | cons x t =>
    rw [parse_object_cons 45 (x :: t) (by simp) (by simp)]
    rw [if_neg (by omega), if_neg (by omega), if_neg (by omega), if_neg (by omega)]

/-- Bulk string with matching declared length, possibly followed by trailing
bytes: the parsed value and the consumed count of the source
(`parts[0].len() + parts[1].len() + 3`). -/
theorem parse_bulk_eq (numStr p rest : List Nat) (n : Nat)
    (hnum : parse_usize numStr = some n) (hnen : numStr ≠ []) (hnon : hasCRLF numStr = false)
    (hnep : p ≠ []) (hnop : hasCRLF p = false) (hlen : p.length = n) :
    parse_object (36 :: (numStr ++ 13 :: 10 :: (p ++ 13 :: 10 :: rest)))
      = .ok (some (.BulkString n p), numStr.length + p.length + 3) := by
  rw [parse_object_cons 36 _ (by simp; omega) (by simp)]
  rw [if_neg (by omega), if_neg (by omega), if_neg (by omega), if_pos rfl]
  rw [split_by_line_two_seg numStr p rest hnen hnon hnep hnop]
  show (match parse_usize numStr with
    | some size =>
      if p.length = size then
        Except.ok (some (RedisObject.BulkString size p), numStr.length + p.length + 3)
      else (Except.error Fail.panic : Except Fail (Option RedisObject × Nat))
    | none => Except.error Fail.panic)
      = Except.ok (some (RedisObject.BulkString n p), numStr.length + p.length + 3)
  rw [hnum]
  show (if p.length = n then
      Except.ok (some (RedisObject.BulkString n p), numStr.length + p.length + 3)
    else (Except.error Fail.panic : Except Fail (Option RedisObject × Nat)))
      = Except.ok (some (RedisObject.BulkString n p), numStr.length + p.length + 3)
  rw [if_pos hlen]

/-- Bulk string whose payload length differs from the declared length: the
assert macro in the source fails, a panic. -/
theorem parse_bulk_mismatch (numStr p rest : List Nat) (n : Nat)
    (hnum : parse_usize numStr = some n) (hnen : numStr ≠ []) (hnon : hasCRLF numStr = false)
    (hnep : p ≠ []) (hnop : hasCRLF p = false) (hlen : p.length ≠ n) :
    parse_object (36 :: (numStr ++ 13 :: 10 :: (p ++ 13 :: 10 :: rest))) = .error .panic := by
  rw [parse_object_cons 36 _ (by simp; omega) (by simp)]
  rw [if_neg (by omega), if_neg (by omega), if_neg (by omega), if_pos rfl]
  rw [split_by_line_two_seg numStr p rest hnen hnon hnep hnop]
  show (match parse_usize numStr with
    | some size =>
      if p.length = size then
        Except.ok (some (RedisObject.BulkString size p), numStr.length + p.length + 3)
      else (Except.error Fail.panic : Except Fail (Option RedisObject × Nat))
    | none => Except.error Fail.panic)
      = Except.error Fail.panic
  rw [hnum]
  show (if p.length = n then
      Except.ok (some (RedisObject.BulkString n p), numStr.length + p.length + 3)
    else (Except.error Fail.panic : Except Fail (Option RedisObject × Nat)))
      = Except.error Fail.panic
  rw [if_neg hlen]

/-! ## Decimal digit strings -/

theorem digitsVal_append_digit (l : List Nat) (d : Nat) :
    digitsVal (l ++ [d]) = 10 * digitsVal l + (d - 48) := by
  unfold digitsVal
  rw [List.foldl_append]
  rfl

theorem digitsVal_natDigitsGo : ∀ (fuel n : Nat), n ≤ fuel → digitsVal (natDigitsGo fuel n) = n := by
  intro fuel
  induction fuel with
  | zero =>
    intro n h
    interval_cases n
    rfl
  | succ fuel ih =>
    intro n h
    unfold natDigitsGo
    by_cases h0 : n = 0
    · rw [if_pos h0]
      rw [h0]
      rfl
    · rw [if_neg h0, digitsVal_append_digit, ih (n / 10) (by omega)]
      omega

theorem natDigitsGo_digits : ∀ (fuel n c : Nat), c ∈ natDigitsGo fuel n → 48 ≤ c ∧ c ≤ 57 := by
  intro fuel
  induction fuel with
  | zero => intro n c h; simp [natDigitsGo] at h
  | succ fuel ih =>
    intro n c h
    unfold natDigitsGo at h
    by_cases h0 : n = 0
    · rw [if_pos h0] at h
      simp at h
    · rw [if_neg h0, List.mem_append] at h
      rcases h with h | h
      · exact ih _ _ h
      · simp at h
        have : n % 10 ≤ 9 := by omega
        omega

theorem natDigits_digits (n c : Nat) (h : c ∈ natDigits n) : 48 ≤ c ∧ c ≤ 57 := by
  unfold natDigits at h
  by_cases h0 : n = 0
  · rw [if_pos h0] at h
    simp at h
    omega
  · rw [if_neg h0] at h
    exact natDigitsGo_digits n n c h

theorem natDigits_ne_nil (n : Nat) : natDigits n ≠ [] := by
  unfold natDigits
  by_cases h0 : n = 0
  · rw [if_pos h0]
    simp
  · rw [if_neg h0]
    obtain ⟨fuel, hfuel⟩ : ∃ fuel, n = fuel + 1 := ⟨n - 1, by omega⟩
    rw [hfuel]
    unfold natDigitsGo
    rw [if_neg (by omega)]
    simp

theorem digitsVal_natDigits (n : Nat) : digitsVal (natDigits n) = n := by
  unfold natDigits
  by_cases h0 : n = 0
  · rw [if_pos h0, h0]
    rfl
  · rw [if_neg h0]
    exact digitsVal_natDigitsGo n n le_rfl

theorem hasCRLF_of_no13 (s : List Nat) (h : ∀ c ∈ s, c ≠ 13) : hasCRLF s = false := by
  induction s with
  | nil => rfl
  | cons c t ih =>
    rw [hasCRLF_cons, ih (fun x hx => h x (List.mem_cons_of_mem c hx))]
    have : c ≠ 13 := h c (List.mem_cons_self c t)
    simp [this]

theorem natDigits_no_crlf (n : Nat) : hasCRLF (natDigits n) = false := by
  apply hasCRLF_of_no13
  intro c hc
  have := natDigits_digits n c hc
  omega

theorem natDigits_all_isDigit (n : Nat) : (natDigits n).all isDigit = true := by
  rw [List.all_eq_true]
  intro c hc
  have := natDigits_digits n c hc
  unfold isDigit
  simp
  omega

theorem parse_usize_natDigits (n : Nat) (h : n < 18446744073709551616) :
    parse_usize (natDigits n) = some n := by
  unfold parse_usize
  have hh : (natDigits n).head? ≠ some 43 := by
    cases hd : natDigits n with
    | nil => exact absurd hd (natDigits_ne_nil n)
    | cons c t =>
      have : c ∈ natDigits n := by rw [hd]; exact List.mem_cons_self c t
      have := natDigits_digits n c this
      simp
      omega
  rw [if_neg hh, if_pos ⟨natDigits_ne_nil n, natDigits_all_isDigit n,
    by rw [digitsVal_natDigits]; exact h⟩, digitsVal_natDigits]

/-! ## Serializer structure -/

theorem ser_bulk_append (p R : List Nat) :
    serialize_to_bulk_string p ++ R
      = 36 :: (natDigits p.length ++ 13 :: 10 :: (p ++ 13 :: 10 :: R)) := by
  simp [serialize_to_bulk_string]

theorem length_ser_bulk (p : List Nat) :
    (serialize_to_bulk_string p).length = (natDigits p.length).length + p.length + 5 := by
  simp [serialize_to_bulk_string]
  omega

theorem ser_bulk_ne_nil (p : List Nat) : serialize_to_bulk_string p ≠ [] := by
  simp [serialize_to_bulk_string]

theorem drop_ser_bulk (p R : List Nat) :
    (36 :: (natDigits p.length ++ 13 :: 10 :: (p ++ 13 :: 10 :: R))).drop
      ((natDigits p.length).length + p.length + 3) = 13 :: 10 :: R := by
  have h1 : (natDigits p.length).length + p.length + 3
      = ((natDigits p.length).length + (p.length + 2)) + 1 := by omega
  rw [h1, List.drop_succ_cons, List.drop_append]
  have h2 : p.length + 2 = (p.length + 1) + 1 := by omega
  rw [h2, List.drop_succ_cons, List.drop_succ_cons, List.drop_left]

/-! ## Single steps of the array accumulation loop -/

theorem parseLoop_step_some (stream : List Nat) (pos : Nat) (objects : List RedisObject)
    (obj : RedisObject) (c : Nat)
    (h : parse_object (stream.drop pos) = .ok (some obj, c)) (hc : c ≠ 0) :
    parseLoop stream pos objects =
      if pos + c > stream.length then .ok (some (.Array (objects ++ [obj])), pos + c)
      else parseLoop stream (pos + c) (objects ++ [obj]) := by
  rw [parseLoop.eq_def, h]
  show (if _hc : c = 0 then Except.error Fail.panic
    else if _h2 : pos + c > stream.length then
      Except.ok (some (RedisObject.Array (objects ++ [obj])), pos + c)
    else parseLoop stream (pos + c) (objects ++ [obj])) = _
  rw [dif_neg hc]
  by_cases h2 : pos + c > stream.length
  · rw [dif_pos h2, if_pos h2]
  · rw [dif_neg h2, if_neg h2]

theorem parseLoop_step_none (stream : List Nat) (pos : Nat) (objects : List RedisObject)
    (c : Nat)
    (h : parse_object (stream.drop pos) = .ok (none, c)) (hc : c ≠ 0) :
    parseLoop stream pos objects =
      if pos + c ≥ stream.length then .ok (some (.Array objects), pos + c)
      else parseLoop stream (pos + c) objects := by
  rw [parseLoop.eq_def, h]
  show (if _hc : c = 0 then Except.error Fail.panic
    else if _h2 : pos + c ≥ stream.length then
      Except.ok (some (RedisObject.Array objects), pos + c)
    else parseLoop stream (pos + c) objects) = _
  rw [dif_neg hc]
  by_cases h2 : pos + c ≥ stream.length
  · rw [dif_pos h2, if_pos h2]
  · rw [dif_neg h2, if_neg h2]

theorem parseLoop_step_error (stream : List Nat) (pos : Nat) (objects : List RedisObject)
    (e : Fail) (h : parse_object (stream.drop pos) = .error e) :
    parseLoop stream pos objects = .error e := by
  rw [parseLoop.eq_def, h]

/-- The accumulation loop over a run of serialized bulk strings that exactly
fills the rest of the stream: every frame is decoded (its trailing CRLF being
consumed by the separate absent-value step) and the loop stops exactly at the
end of the stream. -/
theorem parseLoop_bulks :
    ∀ (L : List (List Nat)) (stream : List Nat) (pos : Nat) (objects : List RedisObject),
      L ≠ [] →
      (∀ p ∈ L, p ≠ [] ∧ hasCRLF p = false ∧ p.length < 18446744073709551616) →
      stream.drop pos = (L.map serialize_to_bulk_string).flatten →
      pos + ((L.map serialize_to_bulk_string).flatten).length = stream.length →
      parseLoop stream pos objects
        = .ok (some (.Array (objects ++ L.map (fun p => .BulkString p.length p))),
            stream.length) := by
  intro L
  induction L with
  | nil => intro stream pos objects hne _ _ _; exact absurd rfl hne
  | cons p L' ih =>
    intro stream pos objects _ hall hdrop hlen
    obtain ⟨hp1, hp2, hp3⟩ := hall p (List.mem_cons_self p L')
    rw [List.map_cons, List.flatten_cons] at hdrop hlen
    have hdrop2 : stream.drop pos
        = 36 :: (natDigits p.length ++ 13 :: 10 :: (p ++ 13 :: 10 ::
            (L'.map serialize_to_bulk_string).flatten)) := by
      rw [hdrop, ser_bulk_append]
    have hparse : parse_object (stream.drop pos)
        = .ok (some (.BulkString p.length p), (natDigits p.length).length + p.length + 3) := by
      rw [hdrop2]
      exact parse_bulk_eq (natDigits p.length) p _ p.length
        (parse_usize_natDigits p.length hp3) (natDigits_ne_nil _) (natDigits_no_crlf _)
        hp1 hp2 rfl
    have hslen : pos + ((natDigits p.length).length + p.length + 3) + 2
        + ((L'.map serialize_to_bulk_string).flatten).length = stream.length := by
      rw [List.length_append, length_ser_bulk] at hlen
      omega
    rw [parseLoop_step_some stream pos objects (.BulkString p.length p) _ hparse (by omega)]
    rw [if_neg (by omega)]
    have hdropc : stream.drop (pos + ((natDigits p.length).length + p.length + 3))
        = 13 :: 10 :: (L'.map serialize_to_bulk_string).flatten := by
      have hdd : stream.drop (pos + ((natDigits p.length).length + p.length + 3))
          = (stream.drop pos).drop ((natDigits p.length).length + p.length + 3) := by
        rw [List.drop_drop]
        try congr 1
        try omega
      rw [hdd, hdrop2, drop_ser_bulk]
    have hparse2 : parse_object
        (stream.drop (pos + ((natDigits p.length).length + p.length + 3))) = .ok (none, 2) := by
      rw [hdropc]
      exact parse_object_crlf _
    rw [parseLoop_step_none stream _ _ 2 hparse2 (by omega)]
    by_cases hL' : L' = []
    · subst hL'
      have hR0 : ((([] : List (List Nat)).map serialize_to_bulk_string).flatten).length = 0 := rfl
      rw [if_pos (by omega)]
      have hpos : pos + ((natDigits p.length).length + p.length + 3) + 2 = stream.length := by
        omega
      rw [hpos]
      simp
    · have hRne : (L'.map serialize_to_bulk_string).flatten ≠ [] := by
        cases L' with
        | nil => exact absurd rfl hL'
        | cons q Q =>
          rw [List.map_cons, List.flatten_cons]
          simp [ser_bulk_ne_nil q]
      have hRpos : 0 < ((L'.map serialize_to_bulk_string).flatten).length :=
        List.length_pos.mpr hRne
      rw [if_neg (by omega)]
      have hdrop' : stream.drop (pos + ((natDigits p.length).length + p.length + 3) + 2)
          = (L'.map serialize_to_bulk_string).flatten := by
        have hdd : stream.drop (pos + ((natDigits p.length).length + p.length + 3) + 2)
            = (stream.drop (pos + ((natDigits p.length).length + p.length + 3))).drop 2 := by
          rw [List.drop_drop]
          try congr 1
          try omega
        rw [hdd, hdropc]
        rfl
      rw [ih stream _ (objects ++ [RedisObject.BulkString p.length p]) hL'
        (fun q hq => hall q (List.mem_cons_of_mem p hq)) hdrop' (by omega)]
      simp

/-- An array frame: the declared count line (any parsable number, regardless
of the real element count) followed by serialized bulk strings.  The parse
result holds every element present in the buffer, and the consumed count is
the length of everything after the `*` tag byte. -/
theorem parse_array_frame (numStr : List Nat) (n : Nat) (L : List (List Nat))
    (hnum : parse_usize numStr = some n) (hnen : numStr ≠ []) (hnon : hasCRLF numStr = false)
    (hLne : L ≠ [])
    (hall : ∀ p ∈ L, p ≠ [] ∧ hasCRLF p = false ∧ p.length < 18446744073709551616) :
    parse_object (42 :: (numStr ++ 13 :: 10 :: (L.map serialize_to_bulk_string).flatten))
      = .ok (some (.Array (L.map (fun p => .BulkString p.length p))),
          numStr.length + 2 + ((L.map serialize_to_bulk_string).flatten).length) := by
  rw [parse_object_cons 42 _ (by simp; omega) (by simp), if_pos rfl]
  rw [parse_array.eq_def]
  rw [split_by_line_append_crlf numStr _ hnen hnon]
  show (match parse_usize numStr with
    | none => (Except.error Fail.panic : Except Fail (Option RedisObject × Nat))
    | some _size =>
      parseLoop (numStr ++ 13 :: 10 :: (L.map serialize_to_bulk_string).flatten)
        (numStr.length + 2) []) = _
  rw [hnum]
  show parseLoop (numStr ++ 13 :: 10 :: (L.map serialize_to_bulk_string).flatten)
      (numStr.length + 2) [] = _
  have hdrop : (numStr ++ 13 :: 10 :: (L.map serialize_to_bulk_string).flatten).drop
      (numStr.length + 2) = (L.map serialize_to_bulk_string).flatten := by
    rw [List.drop_append]
    rfl
  have hslen : (numStr.length + 2) + ((L.map serialize_to_bulk_string).flatten).length
      = (numStr ++ 13 :: 10 :: (L.map serialize_to_bulk_string).flatten).length := by
    simp
    omega
  rw [parseLoop_bulks L _ _ [] hLne hall hdrop hslen]
  rw [List.nil_append, ← hslen]

/-! ## Round trips through the encoder -/

theorem ser_simple_canonical (s : List Nat) :
    serialize_to_simple_string s = 43 :: (s ++ [13, 10]) := by
  simp [serialize_to_simple_string]

theorem ser_bulk_canonical (p : List Nat) :
    serialize_to_bulk_string p
      = 36 :: (natDigits p.length ++ 13 :: 10 :: (p ++ 13 :: 10 :: [])) := by
  have h := ser_bulk_append p []
  rw [List.append_nil] at h
  exact h

theorem ser_array_canonical (L : List (List Nat)) :
    serialize_to_array L
      = 42 :: (natDigits L.length ++ 13 :: 10 :: (L.map serialize_to_bulk_string).flatten) := by
  simp [serialize_to_array]

theorem roundtrip_simple (s : List Nat) (hne : s ≠ []) (hno : hasCRLF s = false) :
    parse_object (serialize_to_simple_string s) = .ok (some (.SimpleString s), s.length) := by
  rw [ser_simple_canonical]
  exact parse_simple_eq s hne hno

theorem length_ser_simple (s : List Nat) :
    (serialize_to_simple_string s).length = s.length + 3 := by
  simp [serialize_to_simple_string]

theorem roundtrip_bulk (s : List Nat) (hne : s ≠ []) (hno : hasCRLF s = false)
    (hlen : s.length < 18446744073709551616) :
    parse_object (serialize_to_bulk_string s)
      = .ok (some (.BulkString s.length s), (serialize_to_bulk_string s).length - 2) := by
  rw [ser_bulk_canonical]
  rw [parse_bulk_eq (natDigits s.length) s [] s.length (parse_usize_natDigits s.length hlen)
    (natDigits_ne_nil _) (natDigits_no_crlf _) hne hno rfl]
  have h : (natDigits s.length).length + s.length + 3
      = (serialize_to_bulk_string s).length - 2 := by
    rw [length_ser_bulk]
    omega
  rw [h, ← ser_bulk_canonical]

theorem length_ser_array (L : List (List Nat)) :
    (serialize_to_array L).length
      = (natDigits L.length).length + 3 + ((L.map serialize_to_bulk_string).flatten).length := by
  simp [serialize_to_array]
  omega

theorem roundtrip_array (L : List (List Nat)) (hLne : L ≠ [])
    (hall : ∀ p ∈ L, p ≠ [] ∧ hasCRLF p = false ∧ p.length < 18446744073709551616)
    (hcount : L.length < 18446744073709551616) :
    parse_object (serialize_to_array L)
      = .ok (some (.Array (L.map (fun p => .BulkString p.length p))),
          (serialize_to_array L).length - 1) := by
  rw [ser_array_canonical]
  rw [parse_array_frame (natDigits L.length) L.length L (parse_usize_natDigits L.length hcount)
    (natDigits_ne_nil _) (natDigits_no_crlf _) hLne hall]
  have h : (natDigits L.length).length + 2 + ((L.map serialize_to_bulk_string).flatten).length
      = (serialize_to_array L).length - 1 := by
    rw [length_ser_array]
    omega
  rw [h, ← ser_array_canonical]

/-- C2, counterexample: the encoder emits 5 bytes for the simple string OK,
but the decoder reports only 2 consumed bytes (the payload token length), so
the consumed count does not equal the encoded length. -/
theorem c2_counterexample :
    parse_object (serialize_to_simple_string [79, 75])
        = .ok (some (.SimpleString [79, 75]), 2)
      ∧ (serialize_to_simple_string [79, 75]).length = 5
      ∧ (2 : Nat) ≠ 5 :=
  ⟨roundtrip_simple [79, 75] (by decide) (by decide), by decide, by decide⟩

/-- C2, amended: for every value produced by the encoder whose payloads are
nonempty and CRLF-free, the decoder recovers an equal value, but the reported
consumed count falls short of the encoded length by a fixed amount: 3 bytes
for a simple string, 2 for a bulk string, and 1 for an array of bulk
strings. -/
theorem c2_amended_thm :
    (∀ s : List Nat, s ≠ [] → hasCRLF s = false →
      parse_object (serialize_to_simple_string s) = .ok (some (.SimpleString s), s.length)
        ∧ (serialize_to_simple_string s).length = s.length + 3)
    ∧ (∀ s : List Nat, s ≠ [] → hasCRLF s = false → s.length < 18446744073709551616 →
      parse_object (serialize_to_bulk_string s)
          = .ok (some (.BulkString s.length s), (serialize_to_bulk_string s).length - 2))
    ∧ (∀ L : List (List Nat), L ≠ [] →
      (∀ p ∈ L, p ≠ [] ∧ hasCRLF p = false ∧ p.length < 18446744073709551616) →
      L.length < 18446744073709551616 →
      parse_object (serialize_to_array L)
          = .ok (some (.Array (L.map (fun p => .BulkString p.length p))),
              (serialize_to_array L).length - 1)) :=
  ⟨fun s hne hno => ⟨roundtrip_simple s hne hno, length_ser_simple s⟩,
    fun s hne hno hlen => roundtrip_bulk s hne hno hlen,
    fun L hLne hall hcount => roundtrip_array L hLne hall hcount⟩

/-- Witness for C2 at concrete inputs: the simple string hi, the bulk string
hey, and the array of bulk strings a, bc. -/
theorem c2_witness :
    (([104, 105] : List Nat) ≠ [] ∧ hasCRLF [104, 105] = false
      ∧ ([104, 101, 121] : List Nat) ≠ [] ∧ hasCRLF [104, 101, 121] = false
      ∧ ([104, 101, 121] : List Nat).length < 18446744073709551616
      ∧ ([[97], [98, 99]] : List (List Nat)) ≠ []
      ∧ (∀ p ∈ ([[97], [98, 99]] : List (List Nat)),
          p ≠ [] ∧ hasCRLF p = false ∧ p.length < 18446744073709551616)
      ∧ ([[97], [98, 99]] : List (List Nat)).length < 18446744073709551616)
    ∧ parse_object (serialize_to_simple_string [104, 105])
        = .ok (some (.SimpleString [104, 105]), 2)
    ∧ (serialize_to_simple_string [104, 105]).length = 2 + 3
    ∧ parse_object (serialize_to_bulk_string [104, 101, 121])
        = .ok (some (.BulkString 3 [104, 101, 121]),
            (serialize_to_bulk_string [104, 101, 121]).length - 2)
    ∧ parse_object (serialize_to_array [[97], [98, 99]])
        = .ok (some (.Array [.BulkString 1 [97], .BulkString 2 [98, 99]]),
            (serialize_to_array [[97], [98, 99]]).length - 1) := by
  refine ⟨⟨by decide, by decide, by decide, by decide, by decide, by decide, by decide,
    by decide⟩, ?_, ?_, ?_, ?_⟩
  · exact (c2_amended_thm.1 [104, 105] (by decide) (by decide)).1
  · exact (c2_amended_thm.1 [104, 105] (by decide) (by decide)).2
  · exact c2_amended_thm.2.1 [104, 101, 121] (by decide) (by decide) (by decide)
  · exact c2_amended_thm.2.2 [[97], [98, 99]] (by decide) (by decide) (by decide)

/-- C1, counterexample: an array declaring one element followed by a second
encoded bulk string decodes to a two-element array consuming the whole
remaining buffer (decoding does not stop after the declared count), and a
buffer holding two back-to-back encoded PING command arrays does not decode
to the first command with an offset: the parse panics (out-of-range slice
index on the final byte). -/
theorem c1_counterexample :
    parse_object [42, 49, 13, 10, 36, 49, 13, 10, 97, 13, 10, 36, 49, 13, 10, 98, 13, 10]
        = .ok (some (.Array [.BulkString 1 [97], .BulkString 1 [98]]), 17)
      ∧ parse_object [42, 49, 13, 10, 36, 52, 13, 10, 80, 73, 78, 71, 13, 10,
          42, 49, 13, 10, 36, 52, 13, 10, 80, 73, 78, 71, 13, 10] = .error .panic := by
  constructor
  · exact parse_array_frame [49] 1 [[97], [98]] (by decide) (by decide) (by decide)
      (by decide) (by decide)
  · rw [parse_object_cons 42 _ (by decide) (by decide), if_pos rfl, parse_array.eq_def]
    rw [show split_by_line [49, 13, 10, 36, 52, 13, 10, 80, 73, 78, 71, 13, 10,
        42, 49, 13, 10, 36, 52, 13, 10, 80, 73, 78, 71, 13, 10]
      = some [[49], [36, 52], [80, 73, 78, 71], [42, 49], [36, 52], [80, 73, 78, 71]]
      from by decide]
    show (match parse_usize [49] with
      | none => (Except.error Fail.panic : Except Fail (Option RedisObject × Nat))
      | some _size => parseLoop [49, 13, 10, 36, 52, 13, 10, 80, 73, 78, 71, 13, 10,
          42, 49, 13, 10, 36, 52, 13, 10, 80, 73, 78, 71, 13, 10] 3 [])
      = Except.error Fail.panic
    rw [show parse_usize [49] = some 1 from by decide]
    show parseLoop [49, 13, 10, 36, 52, 13, 10, 80, 73, 78, 71, 13, 10,
        42, 49, 13, 10, 36, 52, 13, 10, 80, 73, 78, 71, 13, 10] 3 []
      = Except.error Fail.panic
    have h1 : parse_object (List.drop 3 [49, 13, 10, 36, 52, 13, 10, 80, 73, 78, 71, 13, 10,
        42, 49, 13, 10, 36, 52, 13, 10, 80, 73, 78, 71, 13, 10])
        = .ok (some (.BulkString 4 [80, 73, 78, 71]), 8) := by
      rw [show List.drop 3 [49, 13, 10, 36, 52, 13, 10, 80, 73, 78, 71, 13, 10,
        42, 49, 13, 10, 36, 52, 13, 10, 80, 73, 78, 71, 13, 10]
        = [36, 52, 13, 10, 80, 73, 78, 71, 13, 10,
          42, 49, 13, 10, 36, 52, 13, 10, 80, 73, 78, 71, 13, 10] from rfl]
      simp only [parse_object]
      rfl
    rw [parseLoop_step_some _ 3 [] (.BulkString 4 [80, 73, 78, 71]) 8 h1 (by decide),
      if_neg (by decide)]
    norm_num
    have h2 : parse_object (List.drop 11 [49, 13, 10, 36, 52, 13, 10, 80, 73, 78, 71, 13, 10,
        42, 49, 13, 10, 36, 52, 13, 10, 80, 73, 78, 71, 13, 10]) = .ok (none, 2) := by
      rw [show List.drop 11 [49, 13, 10, 36, 52, 13, 10, 80, 73, 78, 71, 13, 10,
        42, 49, 13, 10, 36, 52, 13, 10, 80, 73, 78, 71, 13, 10]
        = [13, 10, 42, 49, 13, 10, 36, 52, 13, 10, 80, 73, 78, 71, 13, 10] from rfl]
      exact parse_object_crlf _
    rw [parseLoop_step_none _ 11 _ 2 h2 (by decide), if_neg (by decide)]
    norm_num
    have h3 : parse_object (List.drop 13 [49, 13, 10, 36, 52, 13, 10, 80, 73, 78, 71, 13, 10,
        42, 49, 13, 10, 36, 52, 13, 10, 80, 73, 78, 71, 13, 10])
        = .ok (some (.Array [.BulkString 4 [80, 73, 78, 71]]), 13) :=
      parse_array_frame [49] 1 [[80, 73, 78, 71]] (by decide) (by decide) (by decide)
        (by decide) (by decide)
    rw [parseLoop_step_some _ 13 _ (.Array [.BulkString 4 [80, 73, 78, 71]]) 13 h3 (by decide),
      if_neg (by decide)]
    norm_num
    exact parseLoop_step_error _ 26 _ .panic (parse_object_short _ (by decide))

/-- C1, amended: the array decoder ignores the declared element count.  For
any parsable count line and any nonempty run of serialized bulk strings
filling the buffer, the decode returns every element present and consumes to
the end of the buffer regardless of the declared number; consequently a
buffer holding two back-to-back encoded command arrays is not split at the
frame boundary: the second array is absorbed while parsing the first and the
parse panics on the final byte instead of reporting a first-frame offset. -/
theorem c1_amended_thm :
    (∀ (numStr : List Nat) (n : Nat) (L : List (List Nat)),
      parse_usize numStr = some n → numStr ≠ [] → hasCRLF numStr = false → L ≠ [] →
      (∀ p ∈ L, p ≠ [] ∧ hasCRLF p = false ∧ p.length < 18446744073709551616) →
      parse_object (42 :: (numStr ++ 13 :: 10 :: (L.map serialize_to_bulk_string).flatten))
        = .ok (some (.Array (L.map (fun p => .BulkString p.length p))),
            numStr.length + 2 + ((L.map serialize_to_bulk_string).flatten).length))
    ∧ parse_object [42, 49, 13, 10, 36, 49, 13, 10, 97, 13, 10,
        42, 49, 13, 10, 36, 49, 13, 10, 98, 13, 10] = .error .panic := by
  constructor
  · intro numStr n L hnum hnen hnon hLne hall
    exact parse_array_frame numStr n L hnum hnen hnon hLne hall
  · rw [parse_object_cons 42 _ (by decide) (by decide), if_pos rfl, parse_array.eq_def]
    rw [show split_by_line [49, 13, 10, 36, 49, 13, 10, 97, 13, 10,
        42, 49, 13, 10, 36, 49, 13, 10, 98, 13, 10]
      = some [[49], [36, 49], [97], [42, 49], [36, 49], [98]] from by decide]
    show (match parse_usize [49] with
      | none => (Except.error Fail.panic : Except Fail (Option RedisObject × Nat))
      | some _size => parseLoop [49, 13, 10, 36, 49, 13, 10, 97, 13, 10,
          42, 49, 13, 10, 36, 49, 13, 10, 98, 13, 10] 3 [])
      = Except.error Fail.panic
    rw [show parse_usize [49] = some 1 from by decide]
    show parseLoop [49, 13, 10, 36, 49, 13, 10, 97, 13, 10,
        42, 49, 13, 10, 36, 49, 13, 10, 98, 13, 10] 3 [] = Except.error Fail.panic
    have h1 : parse_object (List.drop 3 [49, 13, 10, 36, 49, 13, 10, 97, 13, 10,
        42, 49, 13, 10, 36, 49, 13, 10, 98, 13, 10])
        = .ok (some (.BulkString 1 [97]), 5) := by
      rw [show List.drop 3 [49, 13, 10, 36, 49, 13, 10, 97, 13, 10,
        42, 49, 13, 10, 36, 49, 13, 10, 98, 13, 10]
        = [36, 49, 13, 10, 97, 13, 10, 42, 49, 13, 10, 36, 49, 13, 10, 98, 13, 10] from rfl]
      simp only [parse_object]
      rfl
    rw [parseLoop_step_some _ 3 [] (.BulkString 1 [97]) 5 h1 (by decide), if_neg (by decide)]
    norm_num
    have h2 : parse_object (List.drop 8 [49, 13, 10, 36, 49, 13, 10, 97, 13, 10,
        42, 49, 13, 10, 36, 49, 13, 10, 98, 13, 10]) = .ok (none, 2) := by
      rw [show List.drop 8 [49, 13, 10, 36, 49, 13, 10, 97, 13, 10,
        42, 49, 13, 10, 36, 49, 13, 10, 98, 13, 10]
        = [13, 10, 42, 49, 13, 10, 36, 49, 13, 10, 98, 13, 10] from rfl]
      exact parse_object_crlf _
    rw [parseLoop_step_none _ 8 _ 2 h2 (by decide), if_neg (by decide)]
    norm_num
    have h3 : parse_object (List.drop 10 [49, 13, 10, 36, 49, 13, 10, 97, 13, 10,
        42, 49, 13, 10, 36, 49, 13, 10, 98, 13, 10])
        = .ok (some (.Array [.BulkString 1 [98]]), 10) :=
      parse_array_frame [49] 1 [[98]] (by decide) (by decide) (by decide) (by decide) (by decide)
    rw [parseLoop_step_some _ 10 _ (.Array [.BulkString 1 [98]]) 10 h3 (by decide),
      if_neg (by decide)]
    norm_num
    exact parseLoop_step_error _ 20 _ .panic (parse_object_short _ (by decide))

/-- Witness for C1 at a concrete input: a count line declaring 2 over a
buffer holding a single bulk string still decodes that one element and
consumes the rest of the buffer. -/
theorem c1_witness :
    (parse_usize [50] = some 2 ∧ ([50] : List Nat) ≠ [] ∧ hasCRLF [50] = false
      ∧ ([[120]] : List (List Nat)) ≠ []
      ∧ (∀ p ∈ ([[120]] : List (List Nat)),
          p ≠ [] ∧ hasCRLF p = false ∧ p.length < 18446744073709551616))
    ∧ parse_object (42 :: ([50] ++ 13 :: 10 ::
        (([[120]] : List (List Nat)).map serialize_to_bulk_string).flatten))
      = .ok (some (.Array [.BulkString 1 [120]]), 10) := by
  refine ⟨⟨by decide, by decide, by decide, by decide, by decide⟩, ?_⟩
  exact c1_amended_thm.1 [50] 2 [[120]] (by decide) (by decide) (by decide) (by decide)
    (by decide)

/-! ## Store lemmas -/

theorem store_get_insert_self (k : List Nat) (e : StoreEntry) (m : Storage) :
    store_get k (store_insert k e m) = some e := by
  induction m with
  | nil => simp [store_insert, store_get]
  | cons kv t ih =>
    obtain ⟨k2, e2⟩ := kv
    unfold store_insert
    by_cases h : k2 = k
    · rw [if_pos h]
      simp [store_get]
    · rw [if_neg h]
      unfold store_get
      rw [if_neg h]
      exact ih

theorem store_get_insert_ne (k k2 : List Nat) (e : StoreEntry) (m : Storage) (h : k2 ≠ k) :
    store_get k2 (store_insert k e m) = store_get k2 m := by
  induction m with
  | nil =>
    unfold store_insert store_get
    rw [if_neg (fun hh => h hh.symm)]
    rfl
  | cons kv t ih =>
    obtain ⟨k3, e3⟩ := kv
    unfold store_insert
    by_cases h3 : k3 = k
    · subst h3
      rw [if_pos rfl]
      unfold store_get
      rw [if_neg (fun hh => h hh.symm), if_neg (fun hh => h hh.symm)]
    · rw [if_neg h3]
      unfold store_get
      by_cases h4 : k3 = k2
      · rw [if_pos h4, if_pos h4]
      · rw [if_neg h4, if_neg h4]
        exact ih

theorem store_get_remove_self (k : List Nat) (m : Storage) :
    store_get k (store_remove k m) = none := by
  induction m with
  | nil => rfl
  | cons kv t ih =>
    obtain ⟨k2, e2⟩ := kv
    unfold store_remove
    by_cases h : k2 = k
    · rw [if_pos h]
      exact ih
    · rw [if_neg h]
      unfold store_get
      rw [if_neg h]
      exact ih

/-- C5: after `Set k v PX 0` at time `t1`, a `Get k` at any time `t2 ≥ t1`
replies with the null bulk string and removes the entry from the mapping, so
a later `Get k` (at any time `t3`) again replies with the null bulk string
because the entry no longer exists. -/
theorem handle_get_eq (st : ServerState) (now : Nat) (k : List Nat) :
    handle_command st now (.Get k)
      = match store_get k st.storage with
        | some (some expiry, v) =>
          if now ≥ expiry then
            ([nullBulkReply], { st with storage := store_remove k st.storage })
          else ([serialize_to_bulk_string v], st)
        | some (none, v) => ([serialize_to_bulk_string v], st)
        | none => ([nullBulkReply], st) := rfl

theorem handle_get_expired (st : ServerState) (now : Nat) (k : List Nat) (expiry : Nat)
    (v : List Nat) (hfound : store_get k st.storage = some (some expiry, v))
    (hexp : now ≥ expiry) :
    handle_command st now (.Get k)
      = ([nullBulkReply], { st with storage := store_remove k st.storage }) := by
  rw [handle_get_eq, hfound]
  show (if now ≥ expiry then
      ([nullBulkReply], { st with storage := store_remove k st.storage })
    else ([serialize_to_bulk_string v], st))
      = ([nullBulkReply], { st with storage := store_remove k st.storage })
  rw [if_pos hexp]

theorem handle_get_missing (st : ServerState) (now : Nat) (k : List Nat)
    (h : store_get k st.storage = none) :
    handle_command st now (.Get k) = ([nullBulkReply], st) := by
  rw [handle_get_eq, h]

theorem c5_expiry_thm (st : ServerState) (k v : List Nat) (t1 t2 t3 : Nat) (h : t1 ≤ t2) :
    (handle_command ((handle_command st t1 (.Set k v (some 0))).2) t2 (.Get k)).1
        = [nullBulkReply]
      ∧ store_get k
          ((handle_command ((handle_command st t1 (.Set k v (some 0))).2) t2 (.Get k)).2).storage
          = none
      ∧ (handle_command
            ((handle_command ((handle_command st t1 (.Set k v (some 0))).2) t2 (.Get k)).2)
            t3 (.Get k)).1 = [nullBulkReply] := by
  have h1 : (handle_command st t1 (.Set k v (some 0))).2
      = { st with storage := store_insert k (some (t1 + 0), v) st.storage } := rfl
  have h2 : handle_command
      ({ st with storage := store_insert k (some (t1 + 0), v) st.storage } : ServerState)
      t2 (.Get k)
      = ([nullBulkReply],
          { st with storage :=
              store_remove k (store_insert k (some (t1 + 0), v) st.storage) }) :=
    handle_get_expired _ t2 k (t1 + 0) v (store_get_insert_self k _ _) (by omega)
  have h3 : store_get k
      (({ st with storage :=
          store_remove k (store_insert k (some (t1 + 0), v) st.storage) } : ServerState)).storage
      = none := store_get_remove_self k _
  have h4 : handle_command
      ({ st with storage :=
          store_remove k (store_insert k (some (t1 + 0), v) st.storage) } : ServerState)
      t3 (.Get k)
      = ([nullBulkReply], _) := handle_get_missing _ t3 k h3
  rw [h1, h2]
  exact ⟨rfl, h3, by rw [h4]⟩

/-- Witness for C5 at a concrete state, key, value and clock values. -/
theorem c5_witness :
    (0 : Nat) ≤ 0
      ∧ ((handle_command ((handle_command ⟨⟨none, none⟩, []⟩ 0
            (.Set [107] [118] (some 0))).2) 0 (.Get [107])).1 = [nullBulkReply]
        ∧ store_get [107]
            ((handle_command ((handle_command ⟨⟨none, none⟩, []⟩ 0
              (.Set [107] [118] (some 0))).2) 0 (.Get [107])).2).storage = none
        ∧ (handle_command
              ((handle_command ((handle_command ⟨⟨none, none⟩, []⟩ 0
                (.Set [107] [118] (some 0))).2) 0 (.Get [107])).2)
              5 (.Get [107])).1 = [nullBulkReply]) :=
  ⟨by decide, c5_expiry_thm ⟨⟨none, none⟩, []⟩ [107] [118] 0 0 5 (by decide)⟩

/-- C10: executing Set touches at most the entry of its own key: every other
key maps to the same entry afterwards, and the configuration is unchanged. -/
theorem c10_frame_thm (st : ServerState) (now : Nat) (k v k2 : List Nat) (e : Option Nat)
    (h : k2 ≠ k) :
    store_get k2 ((handle_command st now (.Set k v e)).2).storage = store_get k2 st.storage
      ∧ ((handle_command st now (.Set k v e)).2).config = st.config :=
  ⟨store_get_insert_ne k k2 _ st.storage h, rfl⟩

/-- Witness for C10 at a concrete state with two keys. -/
theorem c10_witness :
    ([98] : List Nat) ≠ [97]
      ∧ (store_get [98] ((handle_command ⟨⟨none, none⟩, [([98], (none, [49]))]⟩ 7
            (.Set [97] [50] (some 9))).2).storage
          = store_get [98] (⟨⟨none, none⟩, [([98], (none, [49]))]⟩ : ServerState).storage
        ∧ ((handle_command ⟨⟨none, none⟩, [([98], (none, [49]))]⟩ 7
            (.Set [97] [50] (some 9))).2).config
          = (⟨⟨none, none⟩, [([98], (none, [49]))]⟩ : ServerState).config) :=
  ⟨by decide, c10_frame_thm ⟨⟨none, none⟩, [([98], (none, [49]))]⟩ 7 [97] [50] [98] (some 9)
    (by decide)⟩

/-- C9: evaluation of the ConfigGet handler at the failing input.  With
`db_filename` unset the `dbfilename` arm of the source is an empty block, so
the handler writes nothing at all (no generic error reply); the sibling `dir`
arm with `dir` unset does reply with the generic error, as does an unknown
parameter. -/
theorem c9_code_eval :
    handle_command ⟨⟨some [47, 116, 109, 112], none⟩, []⟩ 0 (.ConfigGet strdbfilename)
        = ([], ⟨⟨some [47, 116, 109, 112], none⟩, []⟩)
      ∧ handle_command ⟨⟨none, none⟩, []⟩ 0 (.ConfigGet strdir)
        = ([errorReply], ⟨⟨none, none⟩, []⟩)
      ∧ handle_command ⟨⟨none, none⟩, []⟩ 0 (.ConfigGet [102, 111, 111])
        = ([errorReply], ⟨⟨none, none⟩, []⟩) :=
  ⟨rfl, rfl, rfl⟩

/-- C6: evaluation of the keyspace-entry reader at a failing input.  For the
entry `type 0, key k, value v` followed by `0xFD 0x00 0x00 0x00 0x05`, the
code reads the big-endian 4 bytes starting at the opcode byte itself
(value 4244635648 seconds, including 0xFD as the most significant byte),
stores `now` minus that duration instead of an absolute instant, and
advances only to offset 9, leaving the final timestamp byte 0x05 to be read
as the next entry's type flag.  For `0xFC` the eight timestamp bytes do
follow the opcode, but the stored instant is again `now` minus the value. -/
theorem c6_code_eval :
    rdb_read_entry [0, 1, 107, 1, 118, 253, 0, 0, 0, 5] 0 6000000000000
        = .ok (([107], (some 1755364352000, [118])), 9)
      ∧ rdb_read_entry [0, 1, 107, 1, 118, 252, 0, 0, 0, 0, 0, 0, 0, 7] 0 100
        = .ok (([107], (some 93, [118])), 14)
      ∧ rdb_read_entry [0, 1, 107, 1, 118, 0] 0 50
        = .ok (([107], (none, [118])), 5) :=
  ⟨rfl, rfl, rfl⟩

/-- C7: evaluation of the 14-bit length branch at failing inputs.  The
source computes `(b0 & 63) + (b1 << 6)` in u8 arithmetic, so only the low
two bits of the second byte survive: `[65, 2]` decodes to 129 rather than
the big-endian 14-bit value 258, and `[64, 4]` decodes to 0 rather than 4. -/
theorem c7_code_eval :
    decode_length [65, 2] = .ok (129, 2) ∧ (129 : Nat) ≠ 258
      ∧ decode_length [64, 4] = .ok (0, 2) ∧ (0 : Nat) ≠ 4
      ∧ decode_object [64, 4, 97, 98, 99, 100] = .ok (.Str [], 2) :=
  ⟨rfl, by decide, rfl, by decide, rfl⟩

/-- C4, counterexample: the simple string frame `+abc` CRLF has 6 encoded
bytes, but decode reports 3 consumed bytes (the payload token only, excluding
the tag byte and the CRLF delimiter); the bulk string frame with length line
3 and payload bar has declared-formula length 1 + 2 + 3 + 2 = 8, but decode
reports 7 (`parts[0].len() + parts[1].len() + 3`). -/
theorem c4_counterexample :
    parse_object [43, 97, 98, 99, 13, 10] = .ok (some (.SimpleString [97, 98, 99]), 3)
      ∧ (3 : Nat) ≠ 6
      ∧ parse_object [36, 51, 13, 10, 98, 97, 114, 13, 10]
          = .ok (some (.BulkString 3 [98, 97, 114]), 7)
      ∧ (7 : Nat) ≠ 8 := by
  refine ⟨?_, by decide, ?_, by decide⟩
  · exact parse_simple_eq [97, 98, 99] (by decide) (by decide)
  · exact parse_bulk_eq [51] [98, 97, 114] [] 3 (by decide) (by decide) (by decide) (by decide)
      (by decide) rfl

/-- C4, amended: the consumed count reported by decode is the payload token
length for simple strings and integers (the tag byte and the CRLF delimiter
are not counted), and length-of-length-line + declared length + 3 for bulk
strings (two bytes less than the frame); a simple error frame is not handled
at all (the unimplemented-macro arm panics). -/
theorem c4_amended_thm :
    (∀ s : List Nat, s ≠ [] → hasCRLF s = false →
      parse_object (43 :: (s ++ [13, 10])) = .ok (some (.SimpleString s), s.length))
    ∧ (∀ (s : List Nat) (v : Int), s ≠ [] → hasCRLF s = false → parse_i32 s = some v →
      parse_object (58 :: (s ++ [13, 10])) = .ok (some (.Integer v), s.length))
    ∧ (∀ (numStr p : List Nat) (n : Nat), parse_usize numStr = some n →
      numStr ≠ [] → hasCRLF numStr = false → p ≠ [] → hasCRLF p = false → p.length = n →
      parse_object (36 :: (numStr ++ 13 :: 10 :: (p ++ 13 :: 10 :: [])))
        = .ok (some (.BulkString n p), numStr.length + p.length + 3))
    ∧ (∀ s : List Nat, parse_object (45 :: s) = .error .panic) :=
  ⟨fun s hne hno => parse_simple_eq s hne hno,
    fun s v hne hno hv => parse_integer_eq s v hne hno hv,
    fun numStr p n hnum hnen hnon hnep hnop hlen =>
      parse_bulk_eq numStr p [] n hnum hnen hnon hnep hnop hlen,
    fun s => parse_simpleerr_panic s⟩

/-- Witness for C4 at concrete frames: `+a`, `:42`, `$1 z`, and `-x`. -/
theorem c4_witness :
    (([97] : List Nat) ≠ [] ∧ hasCRLF [97] = false
      ∧ ([52, 50] : List Nat) ≠ [] ∧ hasCRLF [52, 50] = false
      ∧ parse_i32 [52, 50] = some 42
      ∧ parse_usize [49] = some 1 ∧ ([49] : List Nat) ≠ [] ∧ hasCRLF [49] = false
      ∧ ([122] : List Nat) ≠ [] ∧ hasCRLF [122] = false
      ∧ ([122] : List Nat).length = 1)
    ∧ parse_object (43 :: ([97] ++ [13, 10])) = .ok (some (.SimpleString [97]), 1)
    ∧ parse_object (58 :: ([52, 50] ++ [13, 10])) = .ok (some (.Integer 42), 2)
    ∧ parse_object (36 :: ([49] ++ 13 :: 10 :: ([122] ++ 13 :: 10 :: [])))
        = .ok (some (.BulkString 1 [122]), 5)
    ∧ parse_object (45 :: [120, 13, 10]) = .error .panic := by
  refine ⟨⟨by decide, by decide, by decide, by decide, by decide, by decide, by decide,
    by decide, by decide, by decide, by decide⟩, ?_, ?_, ?_, ?_⟩
  · exact c4_amended_thm.1 [97] (by decide) (by decide)
  · exact c4_amended_thm.2.1 [52, 50] 42 (by decide) (by decide) (by decide)
  · exact c4_amended_thm.2.2.1 [49] [122] 1 (by decide) (by decide) (by decide) (by decide)
      (by decide) (by decide)
  · exact c4_amended_thm.2.2.2 [120, 13, 10]

theorem handle_step_panic (st : ServerState) (now : Nat) (buf : List Nat)
    (h : parse_object buf = .error .panic) :
    handle_step st now buf = .error .panic := by
  unfold handle_step Command.from_buffer RESPParser.parse
  rw [h]

theorem parse_bad_bulk_array (numByte n : Nat) (hnum : parse_usize [numByte] = some n)
    (hd : numByte ≠ 13) (hn : n ≠ 3) :
    parse_object [42, 49, 13, 10, 36, numByte, 13, 10, 102, 111, 111, 13, 10]
      = .error .panic := by
  rw [parse_object_cons 42 _ (by simp) (by simp), if_pos rfl, parse_array.eq_def]
  rw [show ([49, 13, 10, 36, numByte, 13, 10, 102, 111, 111, 13, 10] : List Nat)
    = [49] ++ 13 :: 10 :: ([36, numByte] ++ 13 :: 10 :: ([102, 111, 111] ++ 13 :: 10 :: []))
    from by simp]
  rw [split_by_line_two_seg [49] [36, numByte] _ (by simp) (by decide) (by simp)
    (by rw [hasCRLF_cons, hasCRLF_cons, hasCRLF_nil]; simp [hd])]
  show (match parse_usize [49] with
    | none => (Except.error Fail.panic : Except Fail (Option RedisObject × Nat))
    | some _size =>
      parseLoop ([49] ++ 13 :: 10 ::
        ([36, numByte] ++ 13 :: 10 :: ([102, 111, 111] ++ 13 :: 10 :: []))) 3 [])
    = Except.error Fail.panic
  rw [show parse_usize [49] = some 1 from by decide]
  show parseLoop ([49] ++ 13 :: 10 ::
      ([36, numByte] ++ 13 :: 10 :: ([102, 111, 111] ++ 13 :: 10 :: []))) 3 []
    = Except.error Fail.panic
  apply parseLoop_step_error _ 3 _ .panic
  rw [show List.drop 3 ([49] ++ 13 :: 10 ::
      ([36, numByte] ++ 13 :: 10 :: ([102, 111, 111] ++ 13 :: 10 :: [])))
    = 36 :: ([numByte] ++ 13 :: 10 :: ([102, 111, 111] ++ 13 :: 10 :: [])) from by simp]
  exact parse_bulk_mismatch [numByte] [102, 111, 111] [] n hnum (by simp)
    (by rw [hasCRLF_cons, hasCRLF_nil]; simp [hd]) (by simp) (by decide) (by simp; omega)

/-- C3, counterexample: a bulk string declaring length 5 over the 3-byte
payload foo makes the parse panic (failed assert), and a whole command frame
containing it makes the handler step abort with a panic — the handler thread
dies without writing the generic error reply, so the connection is dropped
rather than kept open. -/
theorem c3_counterexample :
    parse_object [36, 53, 13, 10, 102, 111, 111, 13, 10] = .error .panic
      ∧ handle_step ⟨⟨none, none⟩, []⟩ 0
          [42, 49, 13, 10, 36, 53, 13, 10, 102, 111, 111, 13, 10] = .error .panic := by
  constructor
  · exact parse_bulk_mismatch [53] [102, 111, 111] [] 5 (by decide) (by decide) (by decide)
      (by decide) (by decide) (by decide)
  · exact handle_step_panic _ 0 _ (parse_bad_bulk_array 53 5 (by decide) (by decide) (by decide))

/-- C3, amended: decoding a bulk string whose declared length differs from
the payload length never yields a success of any kind, but instead of
returning a decode-error result the parser panics on the failed assert; a
handler step on a command frame containing such a bulk string therefore
aborts its connection thread with no reply written (the listening process
survives, each connection being served by its own thread), rather than
replying with the generic error and keeping the connection open. -/
theorem c3_amended_thm :
    (∀ (numStr p rest : List Nat) (n : Nat), parse_usize numStr = some n →
      numStr ≠ [] → hasCRLF numStr = false → p ≠ [] → hasCRLF p = false → p.length ≠ n →
      parse_object (36 :: (numStr ++ 13 :: 10 :: (p ++ 13 :: 10 :: rest))) = .error .panic)
    ∧ (∀ (st : ServerState) (now : Nat),
      handle_step st now [42, 49, 13, 10, 36, 50, 13, 10, 102, 111, 111, 13, 10]
        = .error .panic) :=
  ⟨fun numStr p rest n hnum hnen hnon hnep hnop hlen =>
      parse_bulk_mismatch numStr p rest n hnum hnen hnon hnep hnop hlen,
    fun st now => handle_step_panic st now _
      (parse_bad_bulk_array 50 2 (by decide) (by decide) (by decide))⟩

/-- Witness for C3 at a concrete mismatched frame and a concrete state. -/
theorem c3_witness :
    (parse_usize [52] = some 4 ∧ ([52] : List Nat) ≠ [] ∧ hasCRLF [52] = false
      ∧ ([104, 105] : List Nat) ≠ [] ∧ hasCRLF [104, 105] = false
      ∧ ([104, 105] : List Nat).length ≠ 4)
    ∧ parse_object (36 :: ([52] ++ 13 :: 10 :: ([104, 105] ++ 13 :: 10 :: [])))
        = .error .panic
    ∧ handle_step ⟨⟨none, none⟩, [([107], (none, [118]))]⟩ 3
        [42, 49, 13, 10, 36, 50, 13, 10, 102, 111, 111, 13, 10] = .error .panic := by
  refine ⟨⟨by decide, by decide, by decide, by decide, by decide, by decide⟩, ?_, ?_⟩
  · exact c3_amended_thm.1 [52] [104, 105] [] 4 (by decide) (by decide) (by decide)
      (by decide) (by decide) (by decide)
  · exact c3_amended_thm.2 ⟨⟨none, none⟩, [([107], (none, [118]))]⟩ 3

/-- C8, counterexample: the decoded 3-element bulk-string array
[foo, GET, x] has its 2nd element case-insensitively equal to GET, so the
claim demands ConfigGet(x); the resolver instead matches the arm for
3-element arrays whose first token is 3 bytes long (the SET arm), fails the
SET keyword test, and returns a parse error. -/
theorem c8_counterexample :
    Command.fromObject (.Array [.BulkString 3 [102, 111, 111], .BulkString 3 [71, 69, 84],
      .BulkString 1 [120]]) = .error .err := rfl

/-- C8, amended: a decoded 3-element bulk-string array resolves to
ConfigGet(key) exactly when its 1st element is 6 bytes long, its 2nd element
is 3 bytes long, and either the 2nd element uppercases to GET or the 1st
uppercases to CONFIG; 3-element arrays whose 1st element is 3 bytes long are
checked against SET instead, and every other 3-element shape is a parse
error. -/
theorem c8_amended_thm (a b c : List Nat) :
    Command.fromObject (.Array [.BulkString a.length a, .BulkString b.length b,
        .BulkString c.length c]) = .ok (.ConfigGet c)
      ↔ (a.length = 6 ∧ b.length = 3 ∧ (upper b = strGET ∨ upper a = strCONFIG)) := by
  show ((if a.length = 3 then
      if upper a = strSET then Except.ok (Command.Set b c none) else Except.error Fail.err
    else if a.length = 6 ∧ b.length = 3 then
      if upper b = strGET ∨ upper a = strCONFIG then Except.ok (Command.ConfigGet c)
      else Except.error Fail.err
    else Except.error Fail.err) : Except Fail Command) = Except.ok (Command.ConfigGet c)
      ↔ (a.length = 6 ∧ b.length = 3 ∧ (upper b = strGET ∨ upper a = strCONFIG))
  constructor
  · intro h
    split_ifs at h with h1 h2 h3 h4 <;>
      first
        | exact ⟨h3.1, h3.2, h4⟩
        | simp_all
  · rintro ⟨hh1, hh2, hh3⟩
    rw [if_neg (by omega), if_pos ⟨hh1, hh2⟩, if_pos hh3]
